import Mathlib

/-!
Shallow embedding of the checklist progress/completion model of the
pre-work-app repository, chiefly of
`src/components/Checklist/ChecklistContainer.tsx` (the checklist-update
routine, the item mutation handlers, reset, and the storage load effect)
together with the Progress Aggregator `calculateProgress` it consumes.
JS timestamps are embedded as natural numbers (milliseconds since the
epoch); JS numbers that are integers in this data model are `Nat`/`Int`.
-/

/-- JS timestamp (milliseconds since the epoch), as produced by `new Date()`. -/
abbrev Date := Nat

/-- `ChecklistItem` of the data model: a single actionable task.
Optional fields (`completedAt`, `notes`, `photo`) are `Option`: `none`
embeds the TS value `undefined`. -/
structure ChecklistItem where
  id : String
  title : String
  description : String
  isRequired : Bool
  isCompleted : Bool
  completedAt : Option Date
  notes : Option String
  photo : Option String
  tags : List String
deriving Repr, DecidableEq

/-- `ChecklistSection`: a named grouping of items with cached counts. -/
structure ChecklistSection where
  id : String
  title : String
  description : String
  items : List ChecklistItem
  isCollapsed : Bool
  order : Int
  completedCount : Nat
  totalCount : Nat
deriving Repr, DecidableEq

/-- `PreWorkChecklist`: the root entity. -/
structure PreWorkChecklist where
  id : String
  title : String
  description : String
  sections : List ChecklistSection
  createdAt : Date
  lastModified : Date
  progress : Nat
  isCompleted : Bool
  completedAt : Option Date
  tags : List String
  priority : String
deriving Repr, DecidableEq

/-- The record returned by the Progress Aggregator. -/
structure Progress where
  total : Nat
  completed : Nat
  percentage : Nat
deriving Repr, DecidableEq

/-- JS `Math.round (num / den)` for nonnegative operands and `den ≠ 0`:
`Math.round x = ⌊x + 1/2⌋`, and `num/den + 1/2 = (2*num + den)/(2*den)`,
whose floor is natural division. -/
def mathRound (num den : Nat) : Nat := (2 * num + den) / (2 * den)

/-- Modelled from the spec: the Progress Aggregator `calculateProgress` of
`src/data/presetChecklists.ts` — that module is absent from the snapshot,
only its import and call sites appear.  Contract (spec section 4.1): total
item count summed across all sections, completed count of the items whose
completed flag is true, percentage `0` when the total is `0` and otherwise
the integer round of `completed/total × 100`. -/
def calculateProgress (c : PreWorkChecklist) : Progress :=
  let total := (c.sections.map (fun s => s.items.length)).sum
  let completed :=
    (c.sections.map (fun s => (s.items.filter (fun i => i.isCompleted)).length)).sum
  { total := total
    completed := completed
    percentage := if total = 0 then 0 else mathRound (100 * completed) total }

/-- All items of a checklist, flattened in order (the spec's view of the
strict section/item tree). -/
def allItems (c : PreWorkChecklist) : List ChecklistItem :=
  (c.sections.map (fun s => s.items)).flatten

/-- Modelled from the spec: a section value as the aggregator may actually
receive it at the UI boundary, where the items array may be missing
(`none`); the spec requires such malformed input to be treated as an empty
sequence. -/
structure RawSection where
  items : Option (List ChecklistItem)
deriving Repr, DecidableEq

/-- Modelled from the spec: a checklist value with possibly-malformed
sections, as fed to the defensive Progress Aggregator. -/
structure RawChecklist where
  sections : List RawSection
deriving Repr, DecidableEq

/-- Modelled from the spec: the Progress Aggregator on possibly-malformed
input — a missing items array is treated defensively as an empty sequence
rather than raising a fault. -/
def calculateProgressRaw (c : RawChecklist) : Progress :=
  let total := (c.sections.map (fun s => (s.items.getD []).length)).sum
  let completed :=
    (c.sections.map (fun s => ((s.items.getD []).filter (fun i => i.isCompleted)).length)).sum
  { total := total
    completed := completed
    percentage := if total = 0 then 0 else mathRound (100 * completed) total }

/-- `Partial<PreWorkChecklist>` as passed to `updateChecklist`: an outer
`none` means the key is absent from the update object.  `lastModified` is
omitted because the routine unconditionally overwrites it with the current
time after spreading the updates. -/
structure ChecklistUpdates where
  id : Option String := none
  title : Option String := none
  description : Option String := none
  sections : Option (List ChecklistSection) := none
  createdAt : Option Date := none
  progress : Option Nat := none
  isCompleted : Option Bool := none
  completedAt : Option (Option Date) := none
  tags : Option (List String) := none
  priority : Option String := none
deriving Repr, DecidableEq

/-- The object spread `{ ...prev, ...updates, lastModified: new Date() }` in
`updateChecklist` (`ChecklistContainer.tsx:70`). -/
def applyChecklistUpdates (prev : PreWorkChecklist) (u : ChecklistUpdates) (now : Date) :
    PreWorkChecklist :=
  { id := u.id.getD prev.id
    title := u.title.getD prev.title
    description := u.description.getD prev.description
    sections := u.sections.getD prev.sections
    createdAt := u.createdAt.getD prev.createdAt
    lastModified := now
    progress := u.progress.getD prev.progress
    isCompleted := u.isCompleted.getD prev.isCompleted
    completedAt := u.completedAt.getD prev.completedAt
    tags := u.tags.getD prev.tags
    priority := u.priority.getD prev.priority }

/-- `updateChecklist` (`ChecklistContainer.tsx:68-83`): spread the updates
over the previous state, stamp `lastModified`, then recompute `progress`
and `isCompleted` from the aggregator.  The `onSave` callback is a side
effect outside the state and is not modelled. -/
def updateChecklist (prev : PreWorkChecklist) (u : ChecklistUpdates) (now : Date) :
    PreWorkChecklist :=
  let updated := applyChecklistUpdates prev u now
  let progress := calculateProgress updated
  { updated with
    progress := progress.percentage
    isCompleted := progress.percentage == 100 }

/-- `Partial<ChecklistItem>` as passed to `handleUpdateItem`: an outer
`none` means the key is absent from the update object (for the optional
fields, `some none` is a present key holding `undefined`). -/
structure ItemUpdates where
  id : Option String := none
  title : Option String := none
  description : Option String := none
  isRequired : Option Bool := none
  isCompleted : Option Bool := none
  completedAt : Option (Option Date) := none
  notes : Option (Option String) := none
  photo : Option (Option String) := none
  tags : Option (List String) := none
deriving Repr, DecidableEq

/-- The object spread `{ ...item, ...updates }` in `handleUpdateItem`
(`ChecklistContainer.tsx:98`). -/
def applyItemUpdates (item : ChecklistItem) (u : ItemUpdates) : ChecklistItem :=
  { id := u.id.getD item.id
    title := u.title.getD item.title
    description := u.description.getD item.description
    isRequired := u.isRequired.getD item.isRequired
    isCompleted := u.isCompleted.getD item.isCompleted
    completedAt := u.completedAt.getD item.completedAt
    notes := u.notes.getD item.notes
    photo := u.photo.getD item.photo
    tags := u.tags.getD item.tags }

/-- The inner `section.items.map(...)` of `handleUpdateItem`
(`ChecklistContainer.tsx:97-99`). -/
def updateItemsForId (iid : String) (u : ItemUpdates) (items : List ChecklistItem) :
    List ChecklistItem :=
  items.map (fun item => if item.id == iid then applyItemUpdates item u else item)

/-- The per-section branch of `handleUpdateItem`
(`ChecklistContainer.tsx:95-108`): on the matching section, update the
items and recompute `completedCount` (and only that count). -/
def updateSectionForItem (sid iid : String) (u : ItemUpdates) (s : ChecklistSection) :
    ChecklistSection :=
  if s.id == sid then
    let updatedItems := updateItemsForId iid u s.items
    { s with
      items := updatedItems
      completedCount := (updatedItems.filter (fun i => i.isCompleted)).length }
  else s

/-- `handleUpdateItem` (`ChecklistContainer.tsx:94-110`). -/
def handleUpdateItem (c : PreWorkChecklist) (sid iid : String) (u : ItemUpdates) (now : Date) :
    PreWorkChecklist :=
  updateChecklist c { sections := some (c.sections.map (updateSectionForItem sid iid u)) } now

/-- The update object built by `handleToggleComplete`
(`ChecklistContainer.tsx:117-120`): flip `isCompleted`; `completedAt`
becomes the current time when completing, `undefined` when un-completing. -/
def toggleUpdates (item : ChecklistItem) (now : Date) : ItemUpdates :=
  { isCompleted := some (!item.isCompleted)
    completedAt := some (if !item.isCompleted then some now else none) }

/-- `handleToggleComplete` (`ChecklistContainer.tsx:112-123`): look up the
section, then the item; when found, apply the toggle updates through
`handleUpdateItem`, otherwise do nothing. -/
def handleToggleComplete (c : PreWorkChecklist) (sid iid : String) (now : Date) :
    PreWorkChecklist :=
  match (c.sections.find? (fun s => s.id == sid)).bind
      (fun s => s.items.find? (fun i => i.id == iid)) with
  | some item => handleUpdateItem c sid iid (toggleUpdates item now) now
  | none => c

/-- The per-section branch of `handleAddItem`
(`ChecklistContainer.tsx:144-154`): on the matching section, append the
item and recompute `totalCount` (and only that count). -/
def addItemToSection (sid : String) (itemWithId : ChecklistItem) (s : ChecklistSection) :
    ChecklistSection :=
  if s.id == sid then
    let updatedItems := s.items ++ [itemWithId]
    { s with
      items := updatedItems
      totalCount := updatedItems.length }
  else s

/-- `handleAddItem` (`ChecklistContainer.tsx:138-157`): give the new item a
generated id (passed in here, since `generateId` mixes the clock and
randomness), append it to the matching section, and recompute `totalCount`
(and only that count). -/
def handleAddItem (c : PreWorkChecklist) (sid : String) (newItem : ChecklistItem)
    (newId : String) (now : Date) : PreWorkChecklist :=
  let itemWithId := { newItem with id := newId }
  updateChecklist c { sections := some (c.sections.map (addItemToSection sid itemWithId)) } now

/-- `handleReset` (`ChecklistContainer.tsx:170-179`): an object spread of
the template with a fresh checklist id and fresh timestamps; the generated
id is passed in. -/
def handleReset (template : PreWorkChecklist) (newId : String) (now : Date) :
    PreWorkChecklist :=
  { template with id := newId, createdAt := now, lastModified := now }

/-- The load-on-mount effect (`ChecklistContainer.tsx:48-61`, and the
analogous settings load in `src/app/settings/page.tsx:65-75`): read the
stored string if any, parse it, and install the parsed state; on a parse
failure, log to the console (second component) and keep the current
in-memory state.  The parse function is a parameter: the behaviour of the
effect does not depend on the internals of `JSON.parse`. -/
def loadFromStorage {α : Type} (stored : Option String)
    (parse : String → Except String α) (current : α) : α × List String :=
  match stored with
  | none => (current, [])
  | some s =>
    match parse s with
    | Except.ok v => (v, [])
    | Except.error e => (current, ["Failed to load from localStorage: " ++ e])

/-- In-memory JS values, as held in component state and handed to
`JSON.stringify`: `Date` objects and `undefined` are distinct from any
JSON value. -/
inductive JSVal where
  | null : JSVal
  | bool : Bool → JSVal
  | num : Int → JSVal
  | str : String → JSVal
  | date : Date → JSVal
  | undef : JSVal
  | arr : List JSVal → JSVal
  | obj : List (String × JSVal) → JSVal
deriving Repr

/-- `Date.prototype.toISOString`, used by `JSON.stringify` on `Date`
values.  The rendering is abbreviated to the millisecond count; every
result below depends only on the serialized form being a string, never on
its spelling. -/
def toISOString (t : Date) : String := "1970-epoch-ms:" ++ toString t

mutual
/-- One `JSON.stringify` / `JSON.parse` round trip over in-memory JS
values (`ChecklistContainer.tsx:38` and `:54`), as a value transformation:
`Date` objects serialize via `toISOString` and come back as strings;
`undefined` array elements serialize as `null`; object properties whose
value is `undefined` are dropped; a bare `undefined` has no JSON form
(`none`). -/
def jsonRT : JSVal → Option JSVal
  | JSVal.null => some JSVal.null
  | JSVal.bool b => some (JSVal.bool b)
  | JSVal.num n => some (JSVal.num n)
  | JSVal.str s => some (JSVal.str s)
  | JSVal.date t => some (JSVal.str (toISOString t))
  | JSVal.undef => none
  | JSVal.arr xs => some (JSVal.arr (jsonRTList xs))
  | JSVal.obj kvs => some (JSVal.obj (jsonRTFields kvs))

def jsonRTList : List JSVal → List JSVal
  | [] => []
  | x :: xs => (jsonRT x).getD JSVal.null :: jsonRTList xs

def jsonRTFields : List (String × JSVal) → List (String × JSVal)
  | [] => []
  | (k, v) :: kvs =>
    match jsonRT v with
    | some w => (k, w) :: jsonRTFields kvs
    | none => jsonRTFields kvs
end

/-- An optional `Date` field of the in-memory object (`undefined` when
absent). -/
def encodeOptDate : Option Date → JSVal
  | some t => JSVal.date t
  | none => JSVal.undef

/-- An optional `String` field of the in-memory object. -/
def encodeOptStr : Option String → JSVal
  | some s => JSVal.str s
  | none => JSVal.undef

/-- The in-memory JS object for a `ChecklistItem`. -/
def encodeItem (i : ChecklistItem) : JSVal :=
  JSVal.obj [("id", JSVal.str i.id), ("title", JSVal.str i.title),
    ("description", JSVal.str i.description), ("isRequired", JSVal.bool i.isRequired),
    ("isCompleted", JSVal.bool i.isCompleted), ("completedAt", encodeOptDate i.completedAt),
    ("notes", encodeOptStr i.notes), ("photo", encodeOptStr i.photo),
    ("tags", JSVal.arr (i.tags.map JSVal.str))]

/-- The in-memory JS object for a `ChecklistSection`. -/
def encodeSection (s : ChecklistSection) : JSVal :=
  JSVal.obj [("id", JSVal.str s.id), ("title", JSVal.str s.title),
    ("description", JSVal.str s.description),
    ("items", JSVal.arr (s.items.map encodeItem)),
    ("isCollapsed", JSVal.bool s.isCollapsed), ("order", JSVal.num s.order),
    ("completedCount", JSVal.num s.completedCount),
    ("totalCount", JSVal.num s.totalCount)]

/-- The in-memory JS object for a `PreWorkChecklist`, as handed to
`JSON.stringify` by the debounced save (`ChecklistContainer.tsx:38`). -/
def encodeChecklist (c : PreWorkChecklist) : JSVal :=
  JSVal.obj [("id", JSVal.str c.id), ("title", JSVal.str c.title),
    ("description", JSVal.str c.description),
    ("sections", JSVal.arr (c.sections.map encodeSection)),
    ("createdAt", JSVal.date c.createdAt), ("lastModified", JSVal.date c.lastModified),
    ("progress", JSVal.num c.progress), ("isCompleted", JSVal.bool c.isCompleted),
    ("completedAt", encodeOptDate c.completedAt),
    ("tags", JSVal.arr (c.tags.map JSVal.str)), ("priority", JSVal.str c.priority)]

/-- The fields an optional `Date` contributes to the parsed snapshot: the
key is dropped when the value was `undefined`, and holds the ISO string
otherwise. -/
def jsonOptDateFields (k : String) : Option Date → List (String × JSVal)
  | some t => [(k, JSVal.str (toISOString t))]
  | none => []

/-- The fields an optional `String` contributes to the parsed snapshot. -/
def jsonOptStrFields (k : String) : Option String → List (String × JSVal)
  | some s => [(k, JSVal.str s)]
  | none => []

/-- What the storage snapshot of an item parses back to: all timestamp
fields are ISO strings and `undefined`-valued keys are gone. -/
def encodeItemJSON (i : ChecklistItem) : JSVal :=
  JSVal.obj ([("id", JSVal.str i.id), ("title", JSVal.str i.title),
      ("description", JSVal.str i.description), ("isRequired", JSVal.bool i.isRequired),
      ("isCompleted", JSVal.bool i.isCompleted)]
    ++ jsonOptDateFields "completedAt" i.completedAt
    ++ jsonOptStrFields "notes" i.notes
    ++ jsonOptStrFields "photo" i.photo
    ++ [("tags", JSVal.arr (i.tags.map JSVal.str))])

/-- What the storage snapshot of a section parses back to. -/
def encodeSectionJSON (s : ChecklistSection) : JSVal :=
  JSVal.obj [("id", JSVal.str s.id), ("title", JSVal.str s.title),
    ("description", JSVal.str s.description),
    ("items", JSVal.arr (s.items.map encodeItemJSON)),
    ("isCollapsed", JSVal.bool s.isCollapsed), ("order", JSVal.num s.order),
    ("completedCount", JSVal.num s.completedCount),
    ("totalCount", JSVal.num s.totalCount)]

/-- What the storage snapshot of a checklist parses back to. -/
def encodeChecklistJSON (c : PreWorkChecklist) : JSVal :=
  JSVal.obj ([("id", JSVal.str c.id), ("title", JSVal.str c.title),
      ("description", JSVal.str c.description),
      ("sections", JSVal.arr (c.sections.map encodeSectionJSON)),
      ("createdAt", JSVal.str (toISOString c.createdAt)),
      ("lastModified", JSVal.str (toISOString c.lastModified)),
      ("progress", JSVal.num c.progress), ("isCompleted", JSVal.bool c.isCompleted)]
    ++ jsonOptDateFields "completedAt" c.completedAt
    ++ [("tags", JSVal.arr (c.tags.map JSVal.str)), ("priority", JSVal.str c.priority)])

/-- A minimal concrete item used as a test input. -/
def mkItem (iid : String) (flag : Bool) : ChecklistItem :=
  { id := iid, title := "task", description := "", isRequired := true,
    isCompleted := flag, completedAt := none, notes := none, photo := none, tags := [] }

/-- A concrete section holding one incomplete item, with accurate cached
counts. -/
def oneItemSection : ChecklistSection :=
  { id := "s", title := "sec", description := "", items := [mkItem "i" false],
    isCollapsed := false, order := 1, completedCount := 0, totalCount := 1 }

/-- A concrete one-section one-item checklist (item incomplete). -/
def oneItemChecklist : PreWorkChecklist :=
  { id := "cl", title := "list", description := "", sections := [oneItemSection],
    createdAt := 0, lastModified := 0, progress := 0, isCompleted := false,
    completedAt := none, tags := [], priority := "medium" }

/-- A concrete empty section with accurate cached counts. -/
def emptySection : ChecklistSection :=
  { id := "s", title := "sec", description := "", items := [],
    isCollapsed := false, order := 1, completedCount := 0, totalCount := 0 }

/-- A concrete checklist with one empty section. -/
def emptySectionChecklist : PreWorkChecklist :=
  { id := "cl", title := "list", description := "", sections := [emptySection],
    createdAt := 0, lastModified := 0, progress := 0, isCompleted := false,
    completedAt := none, tags := [], priority := "medium" }

/-- The item produced by toggling the item of `oneItemChecklist` at time 42. -/
def toggledItemEx : ChecklistItem :=
  { mkItem "i" false with isCompleted := true, completedAt := some 42 }

/-- The section holding `toggledItemEx` inside the toggled checklist. -/
def toggledSectionEx : ChecklistSection :=
  { id := "s", title := "sec", description := "", items := [toggledItemEx],
    isCollapsed := false, order := 1, completedCount := 1, totalCount := 1 }

lemma mathRound_eq_round (num den : Nat) (h : 0 < den) :
    (mathRound num den : ℤ) = round ((num : ℚ) / (den : ℚ)) := by
  have hden : (den : ℚ) ≠ 0 := Nat.cast_ne_zero.mpr h.ne'
  have hx : (num : ℚ) / (den : ℚ) + 1 / 2
      = ((2 * num + den : ℕ) : ℚ) / ((2 * den : ℕ) : ℚ) := by
    push_cast
    field_simp
    ring
  rw [round_eq, hx, ← Int.natCast_floor_eq_floor (by positivity),
    Nat.floor_div_eq_div]
  rfl

lemma filter_join_eq (p : ChecklistItem → Bool) (L : List (List ChecklistItem)) :
    L.flatten.filter p = (L.map (fun l => l.filter p)).flatten := by
  induction L with
  | nil => rfl
  | cons hd tl ih => simp [List.flatten, List.filter_append, ih]

lemma allItems_length (c : PreWorkChecklist) :
    (allItems c).length = (c.sections.map (fun s => s.items.length)).sum := by
  simp only [allItems, List.length_flatten, List.map_map]
  rfl

lemma allItems_filter_length (c : PreWorkChecklist) :
    ((allItems c).filter (fun i => i.isCompleted)).length
      = (c.sections.map (fun s => (s.items.filter (fun i => i.isCompleted)).length)).sum := by
  rw [allItems, filter_join_eq]
  simp only [List.length_flatten, List.map_map]
  rfl

lemma calculateProgress_total_zero (c : PreWorkChecklist)
    (h : (calculateProgress c).total = 0) : (calculateProgress c).percentage = 0 := by
  have h' : (c.sections.map (fun s => s.items.length)).sum = 0 := h
  simp [calculateProgress, h']

lemma calculateProgress_percentage_eq (c : PreWorkChecklist) :
    ((calculateProgress c).percentage : ℤ)
      = if (calculateProgress c).total = 0 then 0
        else round ((100 * ((calculateProgress c).completed : ℚ))
          / ((calculateProgress c).total : ℚ)) := by
  by_cases h0 : (calculateProgress c).total = 0
  · rw [if_pos h0, calculateProgress_total_zero c h0]
    rfl
  · have h0' : ¬ (c.sections.map (fun s => s.items.length)).sum = 0 := h0
    rw [if_neg h0]
    have hpct : (calculateProgress c).percentage
        = mathRound (100 * (calculateProgress c).completed) (calculateProgress c).total := by
      simp [calculateProgress, h0']
    rw [hpct, mathRound_eq_round _ _ (Nat.pos_of_ne_zero h0)]
    congr 1
    push_cast
    ring

/-- C1: for every Checklist, the Progress Aggregator returns the total item
count across all sections, the number of items whose completed flag is
true, and a percentage that is 0 when the total is 0 and otherwise the
integer round of completed/total × 100. -/
theorem calculateProgress_counts_and_round (c : PreWorkChecklist) :
    (calculateProgress c).total = (allItems c).length
    ∧ (calculateProgress c).completed
      = ((allItems c).filter (fun i => i.isCompleted)).length
    ∧ ((calculateProgress c).percentage : ℤ)
      = (if (allItems c).length = 0 then 0
          else round ((100 * ((((allItems c).filter (fun i => i.isCompleted)).length : ℚ)))
            / (((allItems c).length : ℚ)))) := by
  have hT : (calculateProgress c).total = (allItems c).length := (allItems_length c).symm
  have hK : (calculateProgress c).completed
      = ((allItems c).filter (fun i => i.isCompleted)).length :=
    (allItems_filter_length c).symm
  refine ⟨hT, hK, ?_⟩
  rw [← hT, ← hK]
  exact calculateProgress_percentage_eq c

/-- C9: the Progress Aggregator is total and defensive — on input whose
sections all lack an items array (which subsumes the empty section list),
it returns total 0, completed 0, percentage 0 instead of faulting. -/
theorem calculateProgressRaw_defensive (c : RawChecklist)
    (h : ∀ s ∈ c.sections, s.items = none) :
    calculateProgressRaw c = { total := 0, completed := 0, percentage := 0 } := by
  have hT : (c.sections.map (fun s => (s.items.getD []).length)).sum = 0 := by
    apply List.sum_eq_zero
    intro x hx
    rw [List.mem_map] at hx
    obtain ⟨s, hs, rfl⟩ := hx
    simp [h s hs]
  have hK : (c.sections.map
      (fun s => ((s.items.getD []).filter (fun i => i.isCompleted)).length)).sum = 0 := by
    apply List.sum_eq_zero
    intro x hx
    rw [List.mem_map] at hx
    obtain ⟨s, hs, rfl⟩ := hx
    simp [h s hs]
  simp [calculateProgressRaw, hT, hK]

/-- Witness for C9 at a concrete malformed input. -/
theorem calculateProgressRaw_defensive_witness :
    calculateProgressRaw { sections := [{ items := none }, { items := none }] }
      = { total := 0, completed := 0, percentage := 0 } :=
  calculateProgressRaw_defensive { sections := [{ items := none }, { items := none }] }
    (by decide)

lemma updateChecklist_sections (prev : PreWorkChecklist) (u : ChecklistUpdates) (now : Date) :
    (updateChecklist prev u now).sections = (applyChecklistUpdates prev u now).sections := rfl

lemma calculateProgress_congr {a b : PreWorkChecklist} (h : a.sections = b.sections) :
    calculateProgress a = calculateProgress b := by
  simp [calculateProgress, h]

lemma updateChecklist_isCompleted_def (prev : PreWorkChecklist) (u : ChecklistUpdates)
    (now : Date) :
    (updateChecklist prev u now).isCompleted
      = ((calculateProgress (applyChecklistUpdates prev u now)).percentage == 100) := rfl

/-- C2: after every run of the checklist-update routine, the derived
`isCompleted` flag is true exactly when the computed percentage is 100 and
the checklist holds at least one item; with zero items the percentage is 0
and `isCompleted` is false. -/
theorem updateChecklist_isCompleted_iff (prev : PreWorkChecklist) (u : ChecklistUpdates)
    (now : Date) :
    ((updateChecklist prev u now).isCompleted = true)
      ↔ ((calculateProgress (updateChecklist prev u now)).percentage = 100
          ∧ 0 < (allItems (updateChecklist prev u now)).length) := by
  have hcp : calculateProgress (updateChecklist prev u now)
      = calculateProgress (applyChecklistUpdates prev u now) :=
    calculateProgress_congr (updateChecklist_sections prev u now)
  have hlen : (allItems (updateChecklist prev u now)).length
      = (calculateProgress (updateChecklist prev u now)).total := by
    rw [allItems_length]
    rfl
  rw [updateChecklist_isCompleted_def, hcp, hlen, hcp]
  constructor
  · intro h
    have h1 : (calculateProgress (applyChecklistUpdates prev u now)).percentage = 100 := by
      simpa using h
    refine ⟨h1, ?_⟩
    by_contra h2
    have ht : (calculateProgress (applyChecklistUpdates prev u now)).total = 0 :=
      Nat.eq_zero_of_not_pos h2
    rw [calculateProgress_total_zero _ ht] at h1
    exact absurd h1 (by decide)
  · intro h
    simp [h.1]

/-- C3 counterexample: toggling the single incomplete item of
`oneItemChecklist` takes the aggregate percentage from below 100 to
exactly 100, yet the checklist-level `completedAt` is not stamped on that
step (it stays absent). -/
theorem toggle_transition_no_completedAt_stamp :
    (calculateProgress oneItemChecklist).percentage < 100
    ∧ (calculateProgress (handleToggleComplete oneItemChecklist "s" "i" 42)).percentage = 100
    ∧ (handleToggleComplete oneItemChecklist "s" "i" 42).completedAt = none := by
  decide

/-- C3 (amended): the checklist-update routine never stamps the
checklist-level `completedAt`: as long as the update object does not
itself carry a `completedAt` key (no caller in the repository does), the
field is unchanged on every update step, and every completed-flag toggle
leaves it unchanged — including the step that takes the percentage from
below 100 to 100. -/
theorem updateChecklist_completedAt_unchanged (c : PreWorkChecklist) (sid iid : String)
    (u : ChecklistUpdates) (now : Date) (h : u.completedAt = none) :
    (updateChecklist c u now).completedAt = c.completedAt
    ∧ (handleToggleComplete c sid iid now).completedAt = c.completedAt := by
  constructor
  · show (applyChecklistUpdates c u now).completedAt = c.completedAt
    simp [applyChecklistUpdates, h]
  · unfold handleToggleComplete
    cases hb : (c.sections.find? (fun s => s.id == sid)).bind
        (fun s => s.items.find? (fun i => i.id == iid)) with
    | none => rfl
    | some item =>
      simp [handleUpdateItem, updateChecklist, applyChecklistUpdates]

/-- Witness for C3 (amended) at a concrete input. -/
theorem updateChecklist_completedAt_unchanged_witness :
    (updateChecklist oneItemChecklist {} 7).completedAt = oneItemChecklist.completedAt
    ∧ (handleToggleComplete oneItemChecklist "s" "i" 7).completedAt
      = oneItemChecklist.completedAt :=
  updateChecklist_completedAt_unchanged oneItemChecklist "s" "i" {} 7 rfl

/-- C5 counterexample: resetting from a concrete template does not produce
fresh section identifiers — the reset checklist's section ids are the
template's own ids, refuting the deep-copy/fresh-identifier reading at
this input. -/
theorem handleReset_not_fresh_ids :
    ¬ (∀ s ∈ (handleReset oneItemChecklist "fresh" 99).sections,
        s.id ∉ oneItemChecklist.sections.map (fun t => t.id)) := by
  decide

/-- C5 (amended): `handleReset` replaces the checklist by a shallow copy of
the template: the checklist id and both checklist-level timestamps are
fresh, while the sections — and with them every item and every
section/item identifier — are exactly the template's own. -/
theorem handleReset_shallow (t : PreWorkChecklist) (nid : String) (now : Date) :
    (handleReset t nid now).sections = t.sections
    ∧ (handleReset t nid now).id = nid
    ∧ (handleReset t nid now).createdAt = now
    ∧ (handleReset t nid now).lastModified = now
    ∧ (handleReset t nid now).sections.map (fun s => s.id)
        = t.sections.map (fun s => s.id)
    ∧ (handleReset t nid now).sections.map (fun s => s.items)
        = t.sections.map (fun s => s.items) :=
  ⟨rfl, rfl, rfl, rfl, rfl, rfl⟩

lemma handleUpdateItem_sections (c : PreWorkChecklist) (sid iid : String) (u : ItemUpdates)
    (now : Date) :
    (handleUpdateItem c sid iid u now).sections
      = c.sections.map (updateSectionForItem sid iid u) := rfl

/-- C6 counterexample: adding an already-completed item to a section whose
cached counts were accurate leaves `completedCount` stale (0, though 1
item is completed), refuting the claim that each affected section's
cached counts are recomputed after every item mutation. -/
theorem handleAddItem_stale_completedCount :
    ¬ (∀ s ∈ (handleAddItem emptySectionChecklist "s" (mkItem "x" true) "i1" 7).sections,
        s.id = "s" →
          (s.completedCount = (s.items.filter (fun i => i.isCompleted)).length
            ∧ s.totalCount = s.items.length)) := by
  decide

/-- C6 (amended): after `handleUpdateItem` the affected section's
`completedCount` is recomputed to the number of its completed items while
`totalCount` is left unchanged; after `handleAddItem` the affected
section's `totalCount` is recomputed to the number of its items while
`completedCount` is left unchanged (so it can go stale when the added
item is already completed). -/
theorem item_mutation_counts (c : PreWorkChecklist) (sid iid : String) (u : ItemUpdates)
    (now : Date) (ni : ChecklistItem) (nid : String) :
    (∀ s ∈ (handleUpdateItem c sid iid u now).sections, s.id = sid →
        s.completedCount = (s.items.filter (fun i => i.isCompleted)).length)
    ∧ (handleUpdateItem c sid iid u now).sections.map (fun s => s.totalCount)
        = c.sections.map (fun s => s.totalCount)
    ∧ (∀ s ∈ (handleAddItem c sid ni nid now).sections, s.id = sid →
        s.totalCount = s.items.length)
    ∧ (handleAddItem c sid ni nid now).sections.map (fun s => s.completedCount)
        = c.sections.map (fun s => s.completedCount) := by
  refine ⟨?_, ?_, ?_, ?_⟩
  · intro s hs hid
    rw [handleUpdateItem_sections, List.mem_map] at hs
    obtain ⟨a, _, rfl⟩ := hs
    by_cases h : (a.id == sid) = true
    · simp [updateSectionForItem, h]
    · rw [updateSectionForItem, if_neg h] at hid ⊢
      exact absurd (beq_iff_eq.mpr hid) h
  · rw [handleUpdateItem_sections, List.map_map]
    apply List.map_congr_left
    intro a _
    show (updateSectionForItem sid iid u a).totalCount = a.totalCount
    unfold updateSectionForItem
    split <;> rfl
  · intro s hs hid
    have hs' : s ∈ c.sections.map (addItemToSection sid { ni with id := nid }) := hs
    rw [List.mem_map] at hs'
    obtain ⟨a, _, rfl⟩ := hs'
    by_cases h : (a.id == sid) = true
    · simp [addItemToSection, h]
    · rw [addItemToSection, if_neg h] at hid ⊢
      exact absurd (beq_iff_eq.mpr hid) h
  · have hsec : (handleAddItem c sid ni nid now).sections
        = c.sections.map (addItemToSection sid { ni with id := nid }) := rfl
    rw [hsec, List.map_map]
    apply List.map_congr_left
    intro a _
    show (addItemToSection sid { ni with id := nid } a).completedCount = a.completedCount
    unfold addItemToSection
    split <;> rfl

/-- Witness for C6 (amended): the toggled section of `oneItemChecklist`
has its `completedCount` recomputed to its completed-item count. -/
theorem item_mutation_counts_witness :
    toggledSectionEx.completedCount
      = (toggledSectionEx.items.filter (fun i => i.isCompleted)).length :=
  (item_mutation_counts oneItemChecklist "s" "i" (toggleUpdates (mkItem "i" false) 42) 42
      (mkItem "x" false) "i1").1 toggledSectionEx (by decide) (by decide)

/-- C10: whenever `handleToggleComplete` actually finds and toggles an
item, every item carrying the toggled id in the targeted sections of the
result has `completedAt` defined (and equal to the toggle's timestamp)
exactly when its completed flag is true. -/
theorem handleToggleComplete_completedAt_iff (c : PreWorkChecklist) (sid iid : String)
    (now : Date) (i : ChecklistItem)
    (hfind : (c.sections.find? (fun s => s.id == sid)).bind
        (fun s => s.items.find? (fun j => j.id == iid)) = some i) :
    ∀ s ∈ (handleToggleComplete c sid iid now).sections, (s.id == sid) = true →
      ∀ x ∈ s.items, (x.id == iid) = true →
        x.completedAt = if x.isCompleted then some now else none := by
  intro s hs hsid x hx hxid
  rw [handleToggleComplete, hfind] at hs
  rw [handleUpdateItem_sections, List.mem_map] at hs
  obtain ⟨a, _, rfl⟩ := hs
  by_cases hid : (a.id == sid) = true
  · have hit : (updateSectionForItem sid iid (toggleUpdates i now) a).items
        = updateItemsForId iid (toggleUpdates i now) a.items := by
      simp [updateSectionForItem, hid]
    rw [hit, updateItemsForId, List.mem_map] at hx
    obtain ⟨b, _, rfl⟩ := hx
    by_cases hbid : (b.id == iid) = true
    · rw [if_pos hbid]
      cases hc : i.isCompleted <;>
        simp [applyItemUpdates, toggleUpdates, hc]
    · rw [if_neg hbid] at hxid
      exact absurd hxid hbid
  · have ha : updateSectionForItem sid iid (toggleUpdates i now) a = a := by
      simp [updateSectionForItem, hid]
    rw [ha] at hsid
    exact absurd hsid hid

/-- Witness for C10: the toggled item of `oneItemChecklist` carries the
toggle timestamp exactly because its flag is now true. -/
theorem handleToggleComplete_completedAt_iff_witness :
    toggledItemEx.completedAt = if toggledItemEx.isCompleted then some 42 else none :=
  handleToggleComplete_completedAt_iff oneItemChecklist "s" "i" 42 (mkItem "i" false)
    (by decide) toggledSectionEx (by decide) (by decide) toggledItemEx (by decide) (by decide)

/-- C8: when the stored snapshot fails to parse, the load effect logs the
failure and keeps the current in-memory state — the unparseable input
never replaces it. -/
theorem loadFromStorage_failure_keeps_state {α : Type} (s : String)
    (parse : String → Except String α) (current : α) (e : String)
    (h : parse s = Except.error e) :
    loadFromStorage (some s) parse current
      = (current, ["Failed to load from localStorage: " ++ e]) := by
  simp [loadFromStorage, h]

/-- Witness for C8: a malformed snapshot whose parse raises a syntax error
leaves `oneItemChecklist` in place and logs. -/
theorem loadFromStorage_failure_keeps_state_witness :
    loadFromStorage (some "not json") (fun _ => Except.error "SyntaxError")
        oneItemChecklist
      = (oneItemChecklist, ["Failed to load from localStorage: " ++ "SyntaxError"]) :=
  loadFromStorage_failure_keeps_state "not json" (fun _ => Except.error "SyntaxError")
    oneItemChecklist "SyntaxError" rfl

lemma updateSectionForItem_id (sid iid : String) (u : ItemUpdates) (s : ChecklistSection) :
    (updateSectionForItem sid iid u s).id = s.id := by
  unfold updateSectionForItem
  split <;> rfl

lemma toggleApply_id (b i : ChecklistItem) (now : Date) :
    (applyItemUpdates b (toggleUpdates i now)).id = b.id := rfl

lemma updateSectionForItem_items_of_eq (sid iid : String) (u : ItemUpdates)
    (s : ChecklistSection) (h : (s.id == sid) = true) :
    (updateSectionForItem sid iid u s).items = updateItemsForId iid u s.items := by
  simp [updateSectionForItem, h]

lemma updateSectionForItem_of_ne (sid iid : String) (u : ItemUpdates)
    (s : ChecklistSection) (h : ¬ (s.id == sid) = true) :
    updateSectionForItem sid iid u s = s := by
  simp [updateSectionForItem, h]

lemma calculateProgress_ext {a b : PreWorkChecklist}
    (h1 : a.sections.map (fun s => s.items.length) = b.sections.map (fun s => s.items.length))
    (h2 : a.sections.map (fun s => (s.items.filter (fun i => i.isCompleted)).length)
        = b.sections.map (fun s => (s.items.filter (fun i => i.isCompleted)).length)) :
    calculateProgress a = calculateProgress b := by
  simp [calculateProgress, h1, h2]

lemma filter_length_map_congr (g : ChecklistItem → ChecklistItem) (l : List ChecklistItem)
    (h : ∀ x ∈ l, (g x).isCompleted = x.isCompleted) :
    ((l.map g).filter (fun i => i.isCompleted)).length
      = (l.filter (fun i => i.isCompleted)).length := by
  induction l with
  | nil => rfl
  | cons hd tl ih =>
    have hhd := h hd (by simp)
    have htl : ∀ x ∈ tl, (g x).isCompleted = x.isCompleted := fun x hx => h x (by simp [hx])
    simp only [List.map_cons, List.filter_cons, hhd]
    cases hd.isCompleted <;> simp [ih htl]

/-- C7: under the data-model invariant that section identifiers and item
identifiers are unique, toggling an item's completed flag twice in
succession restores the aggregate percentage computed by the Progress
Aggregator. -/
theorem double_toggle_percentage (c : PreWorkChecklist) (sid iid : String) (n1 n2 : Date)
    (hsec : (c.sections.map (fun s => s.id)).Nodup)
    (hitems : ∀ s ∈ c.sections, (s.items.map (fun i => i.id)).Nodup) :
    (calculateProgress
        (handleToggleComplete (handleToggleComplete c sid iid n1) sid iid n2)).percentage
      = (calculateProgress c).percentage := by
  cases hF : c.sections.find? (fun s => s.id == sid) with
  | none =>
    have hb : (c.sections.find? (fun s => s.id == sid)).bind
        (fun s => s.items.find? (fun i => i.id == iid)) = none := by
      rw [hF]
      rfl
    simp [handleToggleComplete, hb]
  | some s =>
    cases hI : s.items.find? (fun i => i.id == iid) with
    | none =>
      have hb : (c.sections.find? (fun s => s.id == sid)).bind
          (fun s => s.items.find? (fun i => i.id == iid)) = none := by
        rw [hF]
        simpa using hI
      simp [handleToggleComplete, hb]
    | some i =>
      have hb1 : (c.sections.find? (fun s => s.id == sid)).bind
          (fun s => s.items.find? (fun i => i.id == iid)) = some i := by
        rw [hF]
        simpa using hI
      have hsid : (s.id == sid) = true := by
        have h := List.find?_some hF
        simpa using h
      have hiid : (i.id == iid) = true := by
        have h := List.find?_some hI
        simpa using h
      have hsmem : s ∈ c.sections := List.mem_of_find?_eq_some hF
      have himem : i ∈ s.items := List.mem_of_find?_eq_some hI
      have ht1 : handleToggleComplete c sid iid n1
          = handleUpdateItem c sid iid (toggleUpdates i n1) n1 := by
        rw [handleToggleComplete, hb1]
      -- find? in the once-toggled state returns the updated section and item
      have hF2 : (handleUpdateItem c sid iid (toggleUpdates i n1) n1).sections.find?
            (fun x => x.id == sid)
          = some (updateSectionForItem sid iid (toggleUpdates i n1) s) := by
        rw [handleUpdateItem_sections, List.find?_map]
        have hcong : ((fun x : ChecklistSection => x.id == sid)
              ∘ updateSectionForItem sid iid (toggleUpdates i n1))
            = (fun x : ChecklistSection => x.id == sid) := by
          funext x
          simp [Function.comp, updateSectionForItem_id]
        rw [hcong, hF]
        rfl
      have hI2 : (updateSectionForItem sid iid (toggleUpdates i n1) s).items.find?
            (fun x => x.id == iid)
          = some (applyItemUpdates i (toggleUpdates i n1)) := by
        rw [updateSectionForItem_items_of_eq _ _ _ _ hsid, updateItemsForId, List.find?_map]
        have hcong : ((fun x : ChecklistItem => x.id == iid)
              ∘ fun item =>
                if item.id == iid then applyItemUpdates item (toggleUpdates i n1) else item)
            = (fun x : ChecklistItem => x.id == iid) := by
          funext x
          by_cases hx : (x.id == iid) = true <;>
            simp [Function.comp, hx, toggleApply_id]
        rw [hcong, hI]
        simp only [Option.map_some']
        rw [if_pos hiid]
      have hb2 : ((handleUpdateItem c sid iid (toggleUpdates i n1) n1).sections.find?
            (fun x => x.id == sid)).bind
          (fun x => x.items.find? (fun y => y.id == iid))
          = some (applyItemUpdates i (toggleUpdates i n1)) := by
        rw [hF2]
        simpa using hI2
      have ht2 : handleToggleComplete (handleUpdateItem c sid iid (toggleUpdates i n1) n1)
            sid iid n2
          = handleUpdateItem (handleUpdateItem c sid iid (toggleUpdates i n1) n1) sid iid
              (toggleUpdates (applyItemUpdates i (toggleUpdates i n1)) n2) n2 := by
        rw [handleToggleComplete, hb2]
      rw [ht1, ht2]
      -- both toggles act section-wise; compose the two maps
      have hsections :
          (handleUpdateItem (handleUpdateItem c sid iid (toggleUpdates i n1) n1) sid iid
              (toggleUpdates (applyItemUpdates i (toggleUpdates i n1)) n2) n2).sections
            = c.sections.map (fun a =>
                updateSectionForItem sid iid
                  (toggleUpdates (applyItemUpdates i (toggleUpdates i n1)) n2)
                  (updateSectionForItem sid iid (toggleUpdates i n1) a)) := by
        rw [handleUpdateItem_sections, handleUpdateItem_sections, List.map_map]
        rfl
      -- the per-section double update preserves item count and completed count
      have key : ∀ a ∈ c.sections,
          (updateSectionForItem sid iid
              (toggleUpdates (applyItemUpdates i (toggleUpdates i n1)) n2)
              (updateSectionForItem sid iid (toggleUpdates i n1) a)).items.length
            = a.items.length
          ∧ ((updateSectionForItem sid iid
                (toggleUpdates (applyItemUpdates i (toggleUpdates i n1)) n2)
                (updateSectionForItem sid iid (toggleUpdates i n1) a)).items.filter
              (fun x => x.isCompleted)).length
            = (a.items.filter (fun x => x.isCompleted)).length := by
        intro a ha
        by_cases haid : (a.id == sid) = true
        · have haeq : a = s := by
            apply List.inj_on_of_nodup_map hsec ha hsmem
            rw [beq_iff_eq] at haid hsid
            rw [haid, hsid]
          subst haeq
          have hfirst := updateSectionForItem_items_of_eq sid iid (toggleUpdates i n1) a hsid
          have hsecond : (updateSectionForItem sid iid
                (toggleUpdates (applyItemUpdates i (toggleUpdates i n1)) n2)
                (updateSectionForItem sid iid (toggleUpdates i n1) a)).items
              = updateItemsForId iid (toggleUpdates (applyItemUpdates i (toggleUpdates i n1)) n2)
                  (updateItemsForId iid (toggleUpdates i n1) a.items) := by
            rw [updateSectionForItem_items_of_eq, hfirst]
            rw [updateSectionForItem_id]
            exact hsid
          rw [hsecond, updateItemsForId, updateItemsForId, List.map_map]
          constructor
          · simp
          · apply filter_length_map_congr
            intro x hx
            by_cases hxid : (x.id == iid) = true
            · have hxeq : x = i := by
                apply List.inj_on_of_nodup_map (hitems a ha) hx himem
                rw [beq_iff_eq] at hxid hiid
                rw [hxid, hiid]
              subst hxeq
              simp [Function.comp, hxid, toggleApply_id, applyItemUpdates, toggleUpdates]
            · simp [Function.comp, hxid]
        · have h1 := updateSectionForItem_of_ne sid iid (toggleUpdates i n1) a haid
          rw [h1, updateSectionForItem_of_ne _ _ _ _ haid]
          exact ⟨rfl, rfl⟩
      have hcalc : calculateProgress
          (handleUpdateItem (handleUpdateItem c sid iid (toggleUpdates i n1) n1) sid iid
            (toggleUpdates (applyItemUpdates i (toggleUpdates i n1)) n2) n2)
          = calculateProgress c := by
        apply calculateProgress_ext <;> rw [hsections, List.map_map] <;>
          apply List.map_congr_left <;> intro a ha
        · exact (key a ha).1
        · exact (key a ha).2
      rw [hcalc]

/-- Witness for C7 at a concrete checklist with unique identifiers. -/
theorem double_toggle_percentage_witness :
    (calculateProgress
        (handleToggleComplete (handleToggleComplete oneItemChecklist "s" "i" 1) "s" "i" 2)).percentage
      = (calculateProgress oneItemChecklist).percentage :=
  double_toggle_percentage oneItemChecklist "s" "i" 1 2 (by decide) (by decide)

lemma jsonRTList_str (l : List String) :
    jsonRTList (l.map JSVal.str) = l.map JSVal.str := by
  induction l with
  | nil => rfl
  | cons hd tl ih => simp [jsonRTList, jsonRT, ih]

lemma jsonRT_encodeItem (i : ChecklistItem) :
    jsonRT (encodeItem i) = some (encodeItemJSON i) := by
  cases hca : i.completedAt <;> cases hn : i.notes <;> cases hp : i.photo <;>
    simp [encodeItem, encodeItemJSON, jsonRT, jsonRTFields, encodeOptDate, encodeOptStr,
      jsonOptDateFields, jsonOptStrFields, jsonRTList_str, hca, hn, hp]

lemma jsonRTList_items (l : List ChecklistItem) :
    jsonRTList (l.map encodeItem) = l.map encodeItemJSON := by
  induction l with
  | nil => rfl
  | cons hd tl ih => simp [jsonRTList, jsonRT_encodeItem, ih]

lemma jsonRT_encodeSection (s : ChecklistSection) :
    jsonRT (encodeSection s) = some (encodeSectionJSON s) := by
  simp [encodeSection, encodeSectionJSON, jsonRT, jsonRTFields, jsonRTList_items,
    jsonRTList_str]

lemma jsonRTList_sections (l : List ChecklistSection) :
    jsonRTList (l.map encodeSection) = l.map encodeSectionJSON := by
  induction l with
  | nil => rfl
  | cons hd tl ih => simp [jsonRTList, jsonRT_encodeSection, ih]

/-- C4 counterexample: the storage round trip of a concrete checklist is
not the original in-memory value — the timestamp fields come back as
strings, not `Date`s — refuting JSON round-trip equality of all fields. -/
theorem json_roundtrip_not_identity :
    jsonRT (encodeChecklist oneItemChecklist) ≠ some (encodeChecklist oneItemChecklist) := by
  simp [encodeChecklist, encodeSection, encodeItem, encodeOptDate, encodeOptStr,
    jsonRT, jsonRTFields, jsonRTList, oneItemChecklist, oneItemSection, mkItem, toISOString]

/-- C4 (amended): the storage round trip preserves every section/item field
except the `Date`-valued ones, which come back as their ISO strings, and
`undefined`-valued optional keys, which are dropped; string, boolean and
numeric fields round-trip unchanged. -/
theorem json_roundtrip_shape (c : PreWorkChecklist) :
    jsonRT (encodeChecklist c) = some (encodeChecklistJSON c) := by
  cases hca : c.completedAt <;>
    simp [encodeChecklist, encodeChecklistJSON, jsonRT, jsonRTFields, encodeOptDate,
      jsonOptDateFields, jsonRTList_sections, jsonRTList_str, hca]
